import Mathlib

/-!
Verification of the nodecast-tv Stream Acquisition & Resilience Engine.

The client side (public/js/components/VideoPlayer.js) is embedded as pure
functions over URLs represented as lists of bytes (`List Nat`, each < 256,
the UTF-8 bytes of the JavaScript string).  The server side
(the transcode route) is embedded over Lean `String`s.  Event handlers
become explicit state-transition functions; traces of events are folded
over those functions.
-/

/-! ## Byte-level strings and URL helpers -/

/-- Byte sequence of a string: the code of each character.  All string
literals of the embedded source are ASCII, where this coincides with the
UTF-8 byte sequence. -/
def str2bytes (s : String) : List Nat :=
  s.toList.map Char.toNat

/-- Upper-case hex digit character code for a nibble, as produced by
JavaScript percent-encoding. -/
def hexDigitU (n : Nat) : Nat :=
  if n < 10 then 48 + n else 55 + n

/-- The characters `encodeURIComponent` leaves unescaped:
`A-Z a-z 0-9 - _ . ! ~ * ' ( )`. -/
def isUnreservedByte (b : Nat) : Bool :=
  decide ((65 ≤ b ∧ b ≤ 90) ∨ (97 ≤ b ∧ b ≤ 122) ∨ (48 ≤ b ∧ b ≤ 57) ∨
    b = 45 ∨ b = 95 ∨ b = 46 ∨ b = 33 ∨ b = 126 ∨ b = 42 ∨ b = 39 ∨ b = 40 ∨ b = 41)

/-- Percent-encode one byte: unreserved bytes pass through, all others
become `%` followed by two upper-case hex digits. -/
def encByte (b : Nat) : List Nat :=
  if isUnreservedByte b then [b] else [37, hexDigitU (b / 16), hexDigitU (b % 16)]

/-- `encodeURIComponent` at the UTF-8 byte level. -/
def encodeURIComponentBytes (u : List Nat) : List Nat :=
  u.flatMap encByte

/-- Parse one hex digit character code (both cases accepted, as
`decodeURIComponent` does). -/
def fromHexDigit (c : Nat) : Option Nat :=
  if 48 ≤ c ∧ c ≤ 57 then some (c - 48)
  else if 65 ≤ c ∧ c ≤ 70 then some (c - 55)
  else if 97 ≤ c ∧ c ≤ 102 then some (c - 87)
  else none

/-- `decodeURIComponent` at the byte level: `%XY` becomes the byte `0xXY`,
any other byte passes through; malformed escapes fail. -/
def decodeURIComponentBytes : List Nat → Option (List Nat)
  | [] => some []
  | c :: rest =>
    if c = 37 then
      match rest with
      | h :: l :: rest2 =>
        match fromHexDigit h, fromHexDigit l with
        | some hi, some lo => (decodeURIComponentBytes rest2).map fun r => (hi * 16 + lo) :: r
        | _, _ => none
      | _ => none
    else
      (decodeURIComponentBytes rest).map fun r => c :: r

/-- Source: getProxiedUrl returns the string "/api/proxy/stream?url=" as a
route base. -/
def apiProxyBase : List Nat := str2bytes "/api/proxy/stream?url="

/-- Source: getTranscodeUrl returns the string "/api/transcode?url=" as a
route base. -/
def apiTranscodeBase : List Nat := str2bytes "/api/transcode?url="

/-- Source: `getProxiedUrl(url)` builds the proxied (Relayed) URL by
appending the URI-component-encoded upstream URL to the proxy route base. -/
def getProxiedUrl (u : List Nat) : List Nat :=
  apiProxyBase ++ encodeURIComponentBytes u

/-- Source: `getTranscodeUrl(url)` builds the Transcoded URL by appending
the URI-component-encoded upstream URL to the transcode route base. -/
def getTranscodeUrl (u : List Nat) : List Nat :=
  apiTranscodeBase ++ encodeURIComponentBytes u

/-- `leadsWith p l` is true when `p` is a leading segment of `l`. -/
def leadsWith : List Nat → List Nat → Bool
  | [], _ => true
  | _ :: _, [] => false
  | a :: as, b :: bs => a == b && leadsWith as bs

/-- Substring occurrence test on byte lists. -/
def containsSub (needle : List Nat) : List Nat → Bool
  | [] => needle.isEmpty
  | b :: t => leadsWith needle (b :: t) || containsSub needle t

/-- JavaScript `hay.includes(needle)`. -/
def jsIncludes (hay needle : List Nat) : Bool :=
  containsSub needle hay

/-- Everything after the first `?` (byte 63) of a URL. -/
def queryPart : List Nat → List Nat
  | [] => []
  | c :: t => if c = 63 then t else queryPart t

/-- The bytes of a literal "url=". -/
def urlEqBytes : List Nat := str2bytes "url="

/-- The raw value of the `url` query parameter of a URL: the text after
`?url=` up to the next `&` (byte 38). -/
def urlParamValue (u : List Nat) : Option (List Nat) :=
  let q := queryPart u
  if leadsWith urlEqBytes q then
    some ((q.drop 4).takeWhile (fun b => !(b == 38)))
  else none

/-! ## Client playback model (VideoPlayer.js) -/

/-- The two Settings flags the stream-resolution logic reads
(`forceProxy`, `forceTranscode`; defaults are false). -/
structure Settings where
  forceProxy : Bool
  forceTranscode : Bool
deriving DecidableEq

/-- Browser capabilities probed by `play`: `Hls.isSupported()` and native
HLS support via `canPlayType`. -/
structure PlayEnv where
  hlsSupported : Bool
  nativeHls : Bool
deriving DecidableEq

/-- The CORS-hostile provider set (`proxyRequiredDomains = ['pluto.tv']`). -/
def plutoBytes : List Nat := str2bytes "pluto.tv"

/-- Observable outcome of one `play(channel, streamUrl)` call:
whether a new Hls engine was created, which URL it was told to load,
what the video element's `src` was set to, how the `isUsingProxy` flag
was set (`none` = left untouched), and which helper URLs were built. -/
structure PlayOutcome where
  hlsCreated : Bool
  hlsLoadUrl : Option (List Nat)
  videoSrc : Option (List Nat)
  setIsUsingProxy : Option Bool
  builtProxiedUrl : Bool
  builtTranscodeUrl : Bool
deriving DecidableEq

/-- Shallow embedding of the URL-selection part of `VideoPlayer.play`
(lines 236-347): the forceTranscode early return, the proactive proxy
decision (`forceProxy` or a CORS-hostile domain match), the
`looksLikeHls` sniff, and the three attach paths (Hls.js, native HLS,
direct element playback). -/
def playOutcome (s : Settings) (env : PlayEnv) (streamUrl : List Nat) : PlayOutcome :=
  if s.forceTranscode then
    { hlsCreated := false
      hlsLoadUrl := none
      videoSrc := some (getTranscodeUrl streamUrl)
      setIsUsingProxy := none
      builtProxiedUrl := false
      builtTranscodeUrl := true }
  else
    let needsProxy := s.forceProxy || jsIncludes streamUrl plutoBytes
    let finalUrl := if needsProxy then getProxiedUrl streamUrl else streamUrl
    let looksLikeHls := jsIncludes finalUrl (str2bytes ".m3u8") ||
      jsIncludes finalUrl (str2bytes "m3u8") ||
      (!jsIncludes finalUrl (str2bytes ".mp4") &&
       !jsIncludes finalUrl (str2bytes ".mkv") &&
       !jsIncludes finalUrl (str2bytes ".avi"))
    if looksLikeHls && env.hlsSupported then
      { hlsCreated := true
        hlsLoadUrl := some finalUrl
        videoSrc := none
        setIsUsingProxy := some needsProxy
        builtProxiedUrl := needsProxy
        builtTranscodeUrl := false }
    else if env.nativeHls then
      { hlsCreated := false
        hlsLoadUrl := none
        videoSrc := some finalUrl
        setIsUsingProxy := some needsProxy
        builtProxiedUrl := needsProxy
        builtTranscodeUrl := false }
    else
      { hlsCreated := false
        hlsLoadUrl := none
        videoSrc := some finalUrl
        setIsUsingProxy := some needsProxy
        builtProxiedUrl := needsProxy
        builtTranscodeUrl := false }

/-- The URL the playback attempt actually attaches to (Hls `loadSource`
argument if an engine was created, else the video element's `src`). -/
def loadedUrl (o : PlayOutcome) : Option (List Nat) :=
  match o.hlsLoadUrl with
  | some u => some u
  | none => o.videoSrc

/-! ## Hls error / fragment handlers (play-created instance) -/

/-- Hls.js error types as delivered in `data.type`. -/
inductive ErrType
  | network
  | media
  | other
deriving DecidableEq

/-- An Hls.js error event: fatal flag, type, and detail string. -/
structure ErrEvent where
  fatal : Bool
  etype : ErrType
  details : List Nat
deriving DecidableEq

/-- Video element state read by the handlers. -/
structure VideoPos where
  paused : Bool
  currentTime : Nat
deriving DecidableEq

/-- Session state the error handler reads and writes: the `isUsingProxy`
flag and `currentUrl` (the original stream URL of this play request). -/
structure SessionState where
  isUsingProxy : Bool
  currentUrl : List Nat
deriving DecidableEq

/-- Side effects the handlers can perform on the Hls engine / video
element. -/
inductive HlsAction
  | loadSource (u : List Nat)
  | startLoad
  | recoverMedia
  | seek (secs : Nat)
  | logFatal
deriving DecidableEq

def fragParsingBytes : List Nat := str2bytes "fragParsingError"

def bufferStalledBytes : List Nat := str2bytes "bufferStalledError"

/-- Source line 284: CORS issues can manifest as NETWORK_ERROR or
MEDIA_ERROR with the fragParsingError detail. -/
def isCorsLikely (e : ErrEvent) : Bool :=
  e.etype == ErrType.network ||
  (e.etype == ErrType.media && e.details == fragParsingBytes)

/-- Shallow embedding of the Hls ERROR handler registered by `play`
(lines 281-309): on a fatal CORS-likely error while not yet proxied,
switch to the proxied URL once; on other fatal media errors, call
`recoverMediaError`; on other fatal errors, only log; on a non-fatal
`bufferStalledError`, nudge the play position while playing. -/
def handleError (st : SessionState) (v : VideoPos) (e : ErrEvent) :
    SessionState × List HlsAction :=
  if e.fatal then
    if isCorsLikely e && !st.isUsingProxy then
      ({ st with isUsingProxy := true },
       [HlsAction.loadSource (getProxiedUrl st.currentUrl), HlsAction.startLoad])
    else if e.etype == ErrType.media then
      (st, [HlsAction.recoverMedia])
    else
      (st, [HlsAction.logFatal])
  else if e.etype == ErrType.media then
    if e.details == bufferStalledBytes then
      if !v.paused && decide (0 < v.currentTime) then (st, [HlsAction.seek 1])
      else (st, [])
    else (st, [])
  else (st, [])

/-- Fold the error handler over a trace of (video state, error event)
pairs, accumulating all emitted actions. -/
def runErrors (st : SessionState) : List (VideoPos × ErrEvent) →
    SessionState × List HlsAction
  | [] => (st, [])
  | (v, e) :: rest =>
    let r := handleError st v e
    let r' := runErrors r.1 rest
    (r'.1, r.2 ++ r'.2)

/-- Whether an action loads a new source URL into the engine. -/
def isLoad : HlsAction → Bool
  | HlsAction.loadSource _ => true
  | _ => false

/-- Number of `loadSource` actions in an action list. -/
def countLoads (acts : List HlsAction) : Nat :=
  (acts.filter isLoad).length

/-- A fragment as seen by the FRAG_CHANGED handler: whether it is the init
segment (`frag.sn === 'initSegment'`) and its continuity counter
(`frag.cc`, possibly undefined). -/
structure Frag where
  isInit : Bool
  cc : Option Nat
deriving DecidableEq

/-- Shallow embedding of the FRAG_CHANGED handler registered by `play`
(lines 313-330).  State is `lastDiscontinuity : Int` (initialised to -1).
Returns the new `lastDiscontinuity` and whether a corrective seek
(`currentTime += 1`) was issued: a seek happens only on a counter change
that is not the first detection, while playing at non-zero position. -/
def handleFrag (last : Int) (v : VideoPos) (frag : Option Frag) : Int × Bool :=
  match frag with
  | none => (last, false)
  | some f =>
    if f.isInit then (last, false)
    else
      match f.cc with
      | none => (last, false)
      | some cc =>
        if (cc : Int) = last then (last, false)
        else
          let wasFirstDetection : Bool := last == -1
          ((cc : Int), !wasFirstDetection && !v.paused && decide (0 < v.currentTime))

/-- Per-event seek decisions of the FRAG_CHANGED handler over a sequence
of fragment events (video state held fixed). -/
def seekFlags (last : Int) (v : VideoPos) : List (Option Frag) → List Bool
  | [] => []
  | f :: rest =>
    let r := handleFrag last v f
    r.2 :: seekFlags r.1 v rest

/-- A non-init fragment event with continuity counter `n`. -/
def ccFrag (n : Nat) : Option Frag := some { isInit := false, cc := some n }

/-! ## Engine-attachment lifecycle (stop / play teardown) -/

/-- A live (not yet destroyed) Hls engine instance: its identity and
whether `attachMedia` bound it to the video element. -/
structure Engine where
  id : Nat
  attachedTo : Bool
deriving DecidableEq

/-- Player object state relevant to the attachment invariant: the set of
live engine instances, the `this.hls` reference, the video element's
source, and a counter for fresh instance identities. -/
structure PlayerState where
  engines : List Engine
  hlsRef : Option Nat
  videoSrc : Option (List Nat)
  nextId : Nat
deriving DecidableEq

/-- Number of engine instances currently attached to the video element. -/
def numAttached (st : PlayerState) : Nat :=
  (st.engines.filter (fun e => e.attachedTo)).length

/-- State after the constructor / `init` (lines 106-181): when
`Hls.isSupported()`, one engine instance exists and is referenced by
`this.hls`, but `attachMedia` has not been called. -/
def initPlayer (hlsSupported : Bool) : PlayerState :=
  if hlsSupported then
    { engines := [⟨0, false⟩]
      hlsRef := some 0
      videoSrc := none
      nextId := 1 }
  else
    { engines := [], hlsRef := none, videoSrc := none, nextId := 0 }

/-- Shallow embedding of `VideoPlayer.stop` (lines 483-491): destroy the
referenced engine if any, null the reference, pause, and clear the video
source. -/
def stopStep (st : PlayerState) : PlayerState :=
  let st1 :=
    match st.hlsRef with
    | some i =>
      { st with
        engines := st.engines.filter (fun e => !(e.id == i))
        hlsRef := none }
    | none => st
  { st1 with videoSrc := none }

/-- The attach phase of `play`: after teardown, either create and attach a
fresh Hls engine (Hls.js path) or set the video element's source
(transcode / native / direct paths), per `playOutcome`. -/
def attachPhase (s : Settings) (env : PlayEnv) (u : List Nat)
    (st : PlayerState) : PlayerState :=
  let o := playOutcome s env u
  if o.hlsCreated then
    { st with
      engines := st.engines ++ [⟨st.nextId, true⟩]
      hlsRef := some st.nextId
      nextId := st.nextId + 1 }
  else
    { st with videoSrc := loadedUrl o }

/-- Shallow embedding of `VideoPlayer.play` at the lifecycle level
(lines 223-347): `play` first runs `stop` (full teardown) and only then
attaches. -/
def playStep (s : Settings) (env : PlayEnv) (u : List Nat)
    (st : PlayerState) : PlayerState :=
  attachPhase s env u (stopStep st)

/-- Player lifecycle operations driven by the UI. -/
inductive PlayerOp
  | play (s : Settings) (env : PlayEnv) (u : List Nat)
  | stop
deriving DecidableEq

/-- Run a sequence of lifecycle operations. -/
def runPlayer (st : PlayerState) : List PlayerOp → PlayerState
  | [] => st
  | PlayerOp.play s env u :: rest => runPlayer (playStep s env u st) rest
  | PlayerOp.stop :: rest => runPlayer (stopStep st) rest

/-- Lifecycle invariant: at most one live engine instance exists, and
every live instance is the one referenced by `this.hls`. -/
def EngineInv (st : PlayerState) : Prop :=
  st.engines.length ≤ 1 ∧ ∀ eng ∈ st.engines, st.hlsRef = some eng.id

/-! ## Transcode route model (the Express transcode router) -/

/-- Response body variants of the transcode route. -/
inductive RouteBody
  | errorJson (msg : String)
  | procStream
deriving DecidableEq

/-- Observable outcome of one GET to the transcode route: HTTP status,
body, the argument list of the spawned transcoder process (if any), and
whether a connection-close kill handler was registered. -/
structure RouteResult where
  status : Nat
  body : RouteBody
  spawnedArgs : Option (List String)
  closeRegistered : Bool
  contentType : Option String
deriving DecidableEq

/-- JavaScript falsiness of `req.query.url`: absent or empty string. -/
def jsFalsyQueryParam : Option String → Bool
  | none => true
  | some s => s == ""

/-- Source lines 25-41: the fixed FFmpeg argument list. -/
def transcodeArgs (url : String) : List String :=
  ["-hide_banner",
   "-loglevel", "warning",
   "-fflags", "+genpts",
   "-i", url,
   "-c:v", "copy",
   "-c:a", "aac",
   "-ar", "48000",
   "-b:a", "256k",
   "-af", "aresample=48000:async=1",
   "-f", "mp4",
   "-movflags", "frag_keyframe+empty_moov+default_base_moof",
   "-"]

/-- The spec's argument contract for the transcoder, stated over an
argument list: the upstream URL is the input (follows `-i`); video is
copied without re-encoding; audio is re-encoded to AAC at a fixed
48000 Hz sample rate and 256k bitrate with async resampling correction;
output is a fragmented MP4 container (movflags allowing rendering
without a trailing index) written to standard output. -/
def ffmpegArgsContract (args : List String) (url : String) : Prop :=
  args[5]? = some "-i" ∧ args[6]? = some url ∧
  args[7]? = some "-c:v" ∧ args[8]? = some "copy" ∧
  args[9]? = some "-c:a" ∧ args[10]? = some "aac" ∧
  args[11]? = some "-ar" ∧ args[12]? = some "48000" ∧
  args[13]? = some "-b:a" ∧ args[14]? = some "256k" ∧
  args[15]? = some "-af" ∧ args[16]? = some "aresample=48000:async=1" ∧
  args[17]? = some "-f" ∧ args[18]? = some "mp4" ∧
  args[19]? = some "-movflags" ∧
  args[20]? = some "frag_keyframe+empty_moov+default_base_moof" ∧
  args.getLast? = some "-"

/-- Shallow embedding of the transcode route handler (part_001 lines
12-90): 400 and no side effect when `url` is falsy; otherwise spawn
FFmpeg with the fixed arguments, pipe stdout into a video/mp4 response,
and register the close-kill handler (500 when the spawn throws). -/
def transcodeRoute (url : Option String) (spawnOk : Bool) : RouteResult :=
  if jsFalsyQueryParam url then
    { status := 400
      body := RouteBody.errorJson "URL parameter is required"
      spawnedArgs := none
      closeRegistered := false
      contentType := none }
  else if spawnOk then
    { status := 200
      body := RouteBody.procStream
      spawnedArgs := some (transcodeArgs (url.getD ""))
      closeRegistered := true
      contentType := some "video/mp4" }
  else
    { status := 500
      body := RouteBody.errorJson "FFmpeg spawn failed"
      spawnedArgs := none
      closeRegistered := false
      contentType := none }

/-- Transcoder process state at the moment the client connection closes. -/
inductive ProcState
  | running
  | exited
deriving DecidableEq

/-- Source lines 71-74: the `req.on('close')` callback.  It ignores the
process state entirely and sends exactly one SIGKILL. -/
def onCloseHandler (pst : ProcState) : List String :=
  match pst with
  | ProcState.running => ["SIGKILL"]
  | ProcState.exited => ["SIGKILL"]

/-! ## Lemmas: percent-encoding round trip -/

theorem fromHexDigit_hexDigitU (n : Nat) (h : n < 16) :
    fromHexDigit (hexDigitU n) = some n := by
  interval_cases n <;> rfl

theorem isUnreservedByte_ne37 (b : Nat) (h : isUnreservedByte b = true) : ¬ b = 37 := by
  intro hb
  subst hb
  exact absurd h (by decide)

theorem enc_cons (b : Nat) (t : List Nat) :
    encodeURIComponentBytes (b :: t) = encByte b ++ encodeURIComponentBytes t := rfl

theorem decode_encode (u : List Nat) (h : ∀ b ∈ u, b < 256) :
    decodeURIComponentBytes (encodeURIComponentBytes u) = some u := by
  induction u with
  | nil => rfl
  | cons b t ih =>
    have hb : b < 256 := h b (List.mem_cons_self b t)
    have ih' := ih (fun x hx => h x (List.mem_cons_of_mem b hx))
    rw [enc_cons]
    by_cases hu : isUnreservedByte b
    · have hb37 : ¬ b = 37 := isUnreservedByte_ne37 b hu
      rw [encByte, if_pos hu]
      show decodeURIComponentBytes (b :: encodeURIComponentBytes t) = some (b :: t)
      rw [decodeURIComponentBytes.eq_def]
      simp only []
      rw [if_neg hb37, ih']
      rfl
    · rw [encByte, if_neg hu]
      show decodeURIComponentBytes
        (37 :: hexDigitU (b / 16) :: hexDigitU (b % 16) :: encodeURIComponentBytes t) =
        some (b :: t)
      rw [decodeURIComponentBytes.eq_def]
      simp [fromHexDigit_hexDigitU (b / 16) (by omega),
        fromHexDigit_hexDigitU (b % 16) (by omega), ih']
      omega

theorem hexDigitU_ge48 (n : Nat) : 48 ≤ hexDigitU n := by
  unfold hexDigitU
  split <;> omega

theorem encBytes_ne38 (u : List Nat) : ∀ b' ∈ encodeURIComponentBytes u, ¬ b' = 38 := by
  induction u with
  | nil =>
    intro b' hb'
    simp [encodeURIComponentBytes] at hb'
  | cons b t ih =>
    intro b' hb'
    rw [enc_cons] at hb'
    rcases List.mem_append.mp hb' with h1 | h2
    · by_cases hu : isUnreservedByte b
      · rw [encByte, if_pos hu] at h1
        simp at h1
        subst h1
        rw [isUnreservedByte, decide_eq_true_eq] at hu
        omega
      · rw [encByte, if_neg hu] at h1
        have h48a := hexDigitU_ge48 (b / 16)
        have h48b := hexDigitU_ge48 (b % 16)
        simp at h1
        rcases h1 with h | h | h <;> omega
    · exact ih b' h2

theorem takeWhile_of_ne38 (l : List Nat) (h : ∀ b ∈ l, ¬ b = 38) :
    l.takeWhile (fun b => !(b == 38)) = l := by
  induction l with
  | nil => rfl
  | cons a t ih =>
    have ha : ¬ a = 38 := h a (List.mem_cons_self a t)
    simp only [List.takeWhile_cons]
    simp [ha, ih (fun x hx => h x (List.mem_cons_of_mem a hx))]

theorem queryPart_append (a x : List Nat) (h : ∀ b ∈ a, ¬ b = 63) :
    queryPart (a ++ 63 :: x) = x := by
  induction a with
  | nil => simp [queryPart]
  | cons c t ih =>
    have hc := h c (List.mem_cons_self c t)
    simp only [List.cons_append, queryPart]
    rw [if_neg hc]
    exact ih (fun b hb => h b (List.mem_cons_of_mem c hb))

theorem leadsWith_append (p z : List Nat) : leadsWith p (p ++ z) = true := by
  induction p with
  | nil => rfl
  | cons a t ih => simp [leadsWith, ih]

theorem apiProxyBase_split :
    apiProxyBase = str2bytes "/api/proxy/stream" ++ 63 :: urlEqBytes := by decide

theorem apiTranscodeBase_split :
    apiTranscodeBase = str2bytes "/api/transcode" ++ 63 :: urlEqBytes := by decide

theorem urlParamValue_of_base (path z : List Nat) (hpath : ∀ b ∈ path, ¬ b = 63)
    (hz : ∀ b ∈ z, ¬ b = 38) :
    urlParamValue ((path ++ 63 :: urlEqBytes) ++ z) = some z := by
  unfold urlParamValue
  rw [List.append_assoc, List.cons_append, queryPart_append path _ hpath]
  have hd : (urlEqBytes ++ z).drop 4 = z := by
    have h4 : urlEqBytes.length = 4 := by decide
    rw [← h4, List.drop_left]
  simp only [leadsWith_append, if_true, hd, takeWhile_of_ne38 z hz]

theorem urlParamValue_proxied (u : List Nat) :
    urlParamValue (getProxiedUrl u) = some (encodeURIComponentBytes u) := by
  rw [getProxiedUrl, apiProxyBase_split]
  exact urlParamValue_of_base _ _ (by decide) (encBytes_ne38 u)

theorem urlParamValue_transcoded (u : List Nat) :
    urlParamValue (getTranscodeUrl u) = some (encodeURIComponentBytes u) := by
  rw [getTranscodeUrl, apiTranscodeBase_split]
  exact urlParamValue_of_base _ _ (by decide) (encBytes_ne38 u)

/-- Claim C10: for every upstream stream URL (byte sequence), the proxied
URL and the transcode URL built by the player embed the upstream URL with
URI-component encoding, so decoding the value of their `url` query
parameter recovers the original URL exactly (including URLs containing
the bytes of `&`, `?`, `=` or `#`, which are always percent-escaped). -/
theorem claim_C10_url_roundtrip (u : List Nat) (h : ∀ b ∈ u, b < 256) :
    (urlParamValue (getProxiedUrl u)).bind decodeURIComponentBytes = some u ∧
    (urlParamValue (getTranscodeUrl u)).bind decodeURIComponentBytes = some u := by
  rw [urlParamValue_proxied, urlParamValue_transcoded]
  exact ⟨decode_encode u h, decode_encode u h⟩

/-- Witness for C10 at a concrete URL containing `&`, `?`, `=` and `#`. -/
theorem claim_C10_url_roundtrip_witness :
    (∀ b ∈ str2bytes "a&b?c=d#e", b < 256) ∧
    ((urlParamValue (getProxiedUrl (str2bytes "a&b?c=d#e"))).bind decodeURIComponentBytes
        = some (str2bytes "a&b?c=d#e") ∧
     (urlParamValue (getTranscodeUrl (str2bytes "a&b?c=d#e"))).bind decodeURIComponentBytes
        = some (str2bytes "a&b?c=d#e")) :=
  ⟨by decide, claim_C10_url_roundtrip (str2bytes "a&b?c=d#e") (by decide)⟩

/-! ## C1: forceTranscode is terminal -/

/-- Claim C1: whenever the forceTranscode setting is true, `play` selects
only the Transcoded delivery: it builds the transcode-service URL, plays
it directly with the native video element (no Hls engine instance is
created), and constructs neither a Direct nor a Relayed (proxied) URL. -/
theorem claim_C1_force_transcode (s : Settings) (env : PlayEnv) (u : List Nat)
    (h : s.forceTranscode = true) :
    playOutcome s env u =
      { hlsCreated := false
        hlsLoadUrl := none
        videoSrc := some (getTranscodeUrl u)
        setIsUsingProxy := none
        builtProxiedUrl := false
        builtTranscodeUrl := true } := by
  simp [playOutcome, h]

/-- Witness for C1 at concrete settings and URL. -/
theorem claim_C1_force_transcode_witness :
    (Settings.mk false true).forceTranscode = true ∧
    playOutcome ⟨false, true⟩ ⟨true, true⟩ (str2bytes "http://e/x.m3u8") =
      { hlsCreated := false
        hlsLoadUrl := none
        videoSrc := some (getTranscodeUrl (str2bytes "http://e/x.m3u8"))
        setIsUsingProxy := none
        builtProxiedUrl := false
        builtTranscodeUrl := true } :=
  ⟨rfl, claim_C1_force_transcode ⟨false, true⟩ ⟨true, true⟩ (str2bytes "http://e/x.m3u8") rfl⟩

/-! ## Error-handler lemmas -/

theorem countLoads_append (a b : List HlsAction) :
    countLoads (a ++ b) = countLoads a + countLoads b := by
  simp [countLoads, List.filter_append]

theorem no_load_of_countLoads_zero {acts : List HlsAction} (h : countLoads acts = 0)
    {a : HlsAction} (ha : a ∈ acts) : isLoad a = false := by
  rw [countLoads, List.length_eq_zero] at h
  have := List.filter_eq_nil_iff.mp h a ha
  simpa using this

theorem handleError_eq_escalate (st : SessionState) (v : VideoPos) (e : ErrEvent)
    (hf : e.fatal = true) (hc : isCorsLikely e = true) (hp : st.isUsingProxy = false) :
    handleError st v e =
      ({ st with isUsingProxy := true },
       [HlsAction.loadSource (getProxiedUrl st.currentUrl), HlsAction.startLoad]) := by
  rw [handleError]
  simp [hf, hc, hp]

theorem handleError_stable (st : SessionState) (v : VideoPos) (e : ErrEvent)
    (h : ¬(e.fatal = true ∧ isCorsLikely e = true ∧ st.isUsingProxy = false)) :
    (handleError st v e).1 = st ∧ countLoads (handleError st v e).2 = 0 := by
  rw [handleError]
  split_ifs with h1 h2 h3 h4 h5 h6
  · exfalso
    have h2' : isCorsLikely e = true ∧ st.isUsingProxy = false := by simpa using h2
    exact h ⟨h1, h2'.1, h2'.2⟩
  all_goals exact ⟨rfl, rfl⟩

theorem runErrors_proxy_stable (st : SessionState) (hp : st.isUsingProxy = true)
    (tr : List (VideoPos × ErrEvent)) :
    (runErrors st tr).1 = st ∧ countLoads (runErrors st tr).2 = 0 := by
  induction tr generalizing st with
  | nil => exact ⟨rfl, rfl⟩
  | cons pe rest ih =>
    rcases pe with ⟨v, e⟩
    have hne : ¬(e.fatal = true ∧ isCorsLikely e = true ∧ st.isUsingProxy = false) := by
      simp [hp]
    have hst := handleError_stable st v e hne
    simp only [runErrors]
    rw [hst.1]
    refine ⟨(ih st hp).1, ?_⟩
    rw [countLoads_append, hst.2, (ih st hp).2]

theorem runErrors_from_direct (u : List Nat) (tr : List (VideoPos × ErrEvent)) :
    countLoads (runErrors ⟨false, u⟩ tr).2 ≤ 1 ∧
    ∀ a ∈ (runErrors ⟨false, u⟩ tr).2, isLoad a = true →
      a = HlsAction.loadSource (getProxiedUrl u) := by
  induction tr with
  | nil =>
    refine ⟨by simp [runErrors, countLoads], ?_⟩
    intro a ha
    simp [runErrors] at ha
  | cons pe rest ih =>
    rcases pe with ⟨v, e⟩
    by_cases hesc : e.fatal = true ∧ isCorsLikely e = true
    · have heq := handleError_eq_escalate ⟨false, u⟩ v e hesc.1 hesc.2 rfl
      have hrest := runErrors_proxy_stable ⟨true, u⟩ rfl rest
      simp only [runErrors, heq]
      constructor
      · rw [countLoads_append, hrest.2]
        simp [countLoads, isLoad]
      · intro a ha hl
        rcases List.mem_append.mp ha with h1 | h2
        · rcases List.mem_cons.mp h1 with h1 | h1
          · exact h1
          · rcases List.mem_cons.mp h1 with h1 | h1
            · subst h1
              simp [isLoad] at hl
            · simp at h1
        · have hz := no_load_of_countLoads_zero hrest.2 h2
          rw [hz] at hl
          cases hl
    · have hne : ¬(e.fatal = true ∧ isCorsLikely e = true ∧
          (⟨false, u⟩ : SessionState).isUsingProxy = false) := by
        intro hcon
        exact hesc ⟨hcon.1, hcon.2.1⟩
      have hst := handleError_stable ⟨false, u⟩ v e hne
      simp only [runErrors]
      rw [hst.1]
      constructor
      · rw [countLoads_append, hst.2]
        simpa using ih.1
      · intro a ha hl
        rcases List.mem_append.mp ha with h1 | h2
        · have := no_load_of_countLoads_zero hst.2 h1
          rw [this] at hl
          cases hl
        · exact ih.2 a h2 hl

theorem playOutcome_direct (s : Settings) (env : PlayEnv) (u : List Nat)
    (h1 : s.forceProxy = false) (h2 : s.forceTranscode = false)
    (h3 : jsIncludes u plutoBytes = false) :
    loadedUrl (playOutcome s env u) = some u ∧
    (playOutcome s env u).builtProxiedUrl = false ∧
    (playOutcome s env u).setIsUsingProxy = some false := by
  simp only [playOutcome, h1, h2, h3, Bool.false_eq_true, if_false, Bool.or_self]
  split_ifs <;> simp [loadedUrl]

theorem playOutcome_proxied (s : Settings) (env : PlayEnv) (u : List Nat)
    (h2 : s.forceTranscode = false) (h3 : jsIncludes u plutoBytes = true) :
    loadedUrl (playOutcome s env u) = some (getProxiedUrl u) ∧
    (playOutcome s env u).builtProxiedUrl = true ∧
    (playOutcome s env u).setIsUsingProxy = some true := by
  simp only [playOutcome, h2, h3, Bool.false_eq_true, if_false, Bool.or_true]
  split_ifs <;> simp [loadedUrl]

/-! ## C2: Direct first, exactly one escalation to Relayed -/

/-- Claim C2: with no force flag set and a URL that does not match the
CORS-hostile domain set, `play` attaches the origin URL unmodified with
the proxy flag cleared (Direct); the first fatal network error escalates
to the proxied URL exactly once (`loadSource` of the proxied URL plus
`startLoad`); and over any trace of subsequent error events at most one
`loadSource` ever happens and every `loadSource` carries the proxied URL
(so there is neither a second proxy escalation nor any transcode
attempt). -/
theorem claim_C2_direct_then_relay (s : Settings) (env : PlayEnv) (u : List Nat)
    (v : VideoPos) (e : ErrEvent) (tr : List (VideoPos × ErrEvent))
    (h1 : s.forceProxy = false) (h2 : s.forceTranscode = false)
    (h3 : jsIncludes u plutoBytes = false)
    (hf : e.fatal = true) (hn : e.etype = ErrType.network) :
    loadedUrl (playOutcome s env u) = some u ∧
    (playOutcome s env u).builtProxiedUrl = false ∧
    (playOutcome s env u).setIsUsingProxy = some false ∧
    handleError ⟨false, u⟩ v e =
      (⟨true, u⟩, [HlsAction.loadSource (getProxiedUrl u), HlsAction.startLoad]) ∧
    countLoads (runErrors ⟨false, u⟩ tr).2 ≤ 1 ∧
    ((runErrors ⟨false, u⟩ tr).2.all
      fun a => !isLoad a || a == HlsAction.loadSource (getProxiedUrl u)) = true := by
  have hp := playOutcome_direct s env u h1 h2 h3
  have hcors : isCorsLikely e = true := by simp [isCorsLikely, hn]
  have hesc := handleError_eq_escalate ⟨false, u⟩ v e hf hcors rfl
  have hrun := runErrors_from_direct u tr
  have hall : ((runErrors ⟨false, u⟩ tr).2.all
      fun a => !isLoad a || a == HlsAction.loadSource (getProxiedUrl u)) = true := by
    rw [List.all_eq_true]
    intro a ha
    by_cases hl : isLoad a = true
    · have := hrun.2 a ha hl
      simp [this]
    · have hlf : isLoad a = false := by simpa using hl
      simp [hlf]
  exact ⟨hp.1, hp.2.1, hp.2.2, hesc, hrun.1, hall⟩

/-- Witness for C2 at a concrete non-CORS-hostile URL and a trace of two
fatal network errors (the second must not escalate again). -/
theorem claim_C2_direct_then_relay_witness :
    jsIncludes (str2bytes "http://e/x.m3u8") plutoBytes = false ∧
    (loadedUrl (playOutcome ⟨false, false⟩ ⟨true, false⟩ (str2bytes "http://e/x.m3u8")) =
      some (str2bytes "http://e/x.m3u8") ∧
    (playOutcome ⟨false, false⟩ ⟨true, false⟩ (str2bytes "http://e/x.m3u8")).builtProxiedUrl = false ∧
    (playOutcome ⟨false, false⟩ ⟨true, false⟩ (str2bytes "http://e/x.m3u8")).setIsUsingProxy = some false ∧
    handleError ⟨false, str2bytes "http://e/x.m3u8"⟩ ⟨false, 1⟩ ⟨true, ErrType.network, []⟩ =
      (⟨true, str2bytes "http://e/x.m3u8"⟩,
       [HlsAction.loadSource (getProxiedUrl (str2bytes "http://e/x.m3u8")), HlsAction.startLoad]) ∧
    countLoads (runErrors ⟨false, str2bytes "http://e/x.m3u8"⟩
      [(⟨false, 1⟩, ⟨true, ErrType.network, []⟩),
       (⟨false, 1⟩, ⟨true, ErrType.network, []⟩)]).2 ≤ 1 ∧
    ((runErrors ⟨false, str2bytes "http://e/x.m3u8"⟩
      [(⟨false, 1⟩, ⟨true, ErrType.network, []⟩),
       (⟨false, 1⟩, ⟨true, ErrType.network, []⟩)]).2.all
      fun a => !isLoad a ||
        a == HlsAction.loadSource (getProxiedUrl (str2bytes "http://e/x.m3u8"))) = true) :=
  ⟨by decide,
   claim_C2_direct_then_relay ⟨false, false⟩ ⟨true, false⟩ (str2bytes "http://e/x.m3u8")
     ⟨false, 1⟩ ⟨true, ErrType.network, []⟩
     [(⟨false, 1⟩, ⟨true, ErrType.network, []⟩),
      (⟨false, 1⟩, ⟨true, ErrType.network, []⟩)]
     rfl rfl (by decide) rfl rfl⟩

/-! ## C3: pluto.tv is relayed from the start -/

/-- Claim C3: for a stream URL containing pluto.tv under default
settings, `play` sets the proxy flag and attaches the proxied URL from
the start, and no later error event ever loads another URL (a Direct,
unproxied URL is never used for the session). -/
theorem claim_C3_pluto_always_relayed (s : Settings) (env : PlayEnv) (u : List Nat)
    (tr : List (VideoPos × ErrEvent))
    (h1 : s.forceProxy = false) (h2 : s.forceTranscode = false)
    (h3 : jsIncludes u plutoBytes = true) :
    loadedUrl (playOutcome s env u) = some (getProxiedUrl u) ∧
    (playOutcome s env u).setIsUsingProxy = some true ∧
    (playOutcome s env u).builtProxiedUrl = true ∧
    (runErrors ⟨true, u⟩ tr).1 = ⟨true, u⟩ ∧
    countLoads (runErrors ⟨true, u⟩ tr).2 = 0 := by
  have hp := playOutcome_proxied s env u h2 h3
  have hr := runErrors_proxy_stable ⟨true, u⟩ rfl tr
  exact ⟨hp.1, hp.2.2, hp.2.1, hr.1, hr.2⟩

/-- Witness for C3 at the spec's example URL with a fatal network error
arriving afterwards. -/
theorem claim_C3_pluto_always_relayed_witness :
    jsIncludes (str2bytes "https://pluto.tv/live/x.m3u8") plutoBytes = true ∧
    (loadedUrl (playOutcome ⟨false, false⟩ ⟨true, false⟩ (str2bytes "https://pluto.tv/live/x.m3u8")) =
      some (getProxiedUrl (str2bytes "https://pluto.tv/live/x.m3u8")) ∧
    (playOutcome ⟨false, false⟩ ⟨true, false⟩
      (str2bytes "https://pluto.tv/live/x.m3u8")).setIsUsingProxy = some true ∧
    (playOutcome ⟨false, false⟩ ⟨true, false⟩
      (str2bytes "https://pluto.tv/live/x.m3u8")).builtProxiedUrl = true ∧
    (runErrors ⟨true, str2bytes "https://pluto.tv/live/x.m3u8"⟩
      [(⟨false, 1⟩, ⟨true, ErrType.network, []⟩)]).1 =
      ⟨true, str2bytes "https://pluto.tv/live/x.m3u8"⟩ ∧
    countLoads (runErrors ⟨true, str2bytes "https://pluto.tv/live/x.m3u8"⟩
      [(⟨false, 1⟩, ⟨true, ErrType.network, []⟩)]).2 = 0) :=
  ⟨by decide,
   claim_C3_pluto_always_relayed ⟨false, false⟩ ⟨true, false⟩
     (str2bytes "https://pluto.tv/live/x.m3u8")
     [(⟨false, 1⟩, ⟨true, ErrType.network, []⟩)]
     rfl rfl (by decide)⟩

/-! ## C5: fatal non-CORS media errors -/

/-- Counterexample to C5 as stated: at a concrete fatal media error with
detail `bufferAppendError` (not CORS-related), the complete list of
actions the handler issues is exactly `[recoverMedia]` — the session
state is unchanged and no URL is ever loaded, in this event or in a
later identical one.  The claimed escalation to the Transcoded delivery
mode therefore never happens: the code has no transcode escalation path
in its error handler at all. -/
theorem claim_C5_counterexample :
    handleError ⟨false, str2bytes "http://e/x.m3u8"⟩ ⟨false, 1⟩
        ⟨true, ErrType.media, str2bytes "bufferAppendError"⟩ =
      (⟨false, str2bytes "http://e/x.m3u8"⟩, [HlsAction.recoverMedia]) ∧
    countLoads (runErrors ⟨false, str2bytes "http://e/x.m3u8"⟩
      [(⟨false, 1⟩, ⟨true, ErrType.media, str2bytes "bufferAppendError"⟩),
       (⟨false, 1⟩, ⟨true, ErrType.media, str2bytes "bufferAppendError"⟩)]).2 = 0 := by
  decide

/-- Claim C5 as amended: for every fatal media/decoder error that is not
CORS-classified (not a network error and not a fragment-parsing failure
while unrelayed), the engine attempts local recovery
(`recoverMediaError`) and nothing else: it does not escalate to the
Transcoded delivery mode and leaves the session state unchanged. -/
theorem claim_C5_media_recovery_no_transcode (st : SessionState) (v : VideoPos)
    (e : ErrEvent) (hf : e.fatal = true) (hm : e.etype = ErrType.media)
    (hc : isCorsLikely e = false ∨ st.isUsingProxy = true) :
    handleError st v e = (st, [HlsAction.recoverMedia]) := by
  rw [handleError]
  have hcond : (isCorsLikely e && !st.isUsingProxy) = false := by
    rcases hc with h | h <;> simp [h]
  simp [hf, hm, hcond]

/-- Witness for the amended C5 at a concrete fatal media error. -/
theorem claim_C5_media_recovery_no_transcode_witness :
    (ErrEvent.mk true ErrType.media (str2bytes "bufferAppendError")).fatal = true ∧
    handleError ⟨false, str2bytes "http://w/y.m3u8"⟩ ⟨false, 2⟩
        ⟨true, ErrType.media, str2bytes "bufferAppendError"⟩ =
      (⟨false, str2bytes "http://w/y.m3u8"⟩, [HlsAction.recoverMedia]) :=
  ⟨rfl,
   claim_C5_media_recovery_no_transcode ⟨false, str2bytes "http://w/y.m3u8"⟩ ⟨false, 2⟩
     ⟨true, ErrType.media, str2bytes "bufferAppendError"⟩ rfl rfl (Or.inl (by decide))⟩

/-! ## C4: discontinuity counter sequence [0,0,1,1,2] -/

/-- Claim C4: while the video is playing at non-zero position, feeding the
FRAG_CHANGED handler non-init fragments with continuity counters
`[0,0,1,1,2]` issues corrective seeks exactly at the 0→1 and 1→2
transitions: the per-event seek decisions are
`[false, false, true, false, true]` (the first event, the first
discontinuity value observed after attach, issues none), for a total of
exactly two seeks. -/
theorem claim_C4_discontinuity_seeks (v : VideoPos)
    (hp : v.paused = false) (ht : 0 < v.currentTime) :
    seekFlags (-1) v [ccFrag 0, ccFrag 0, ccFrag 1, ccFrag 1, ccFrag 2] =
      [false, false, true, false, true] ∧
    ((seekFlags (-1) v [ccFrag 0, ccFrag 0, ccFrag 1, ccFrag 1, ccFrag 2]).count true = 2) := by
  have hflags : seekFlags (-1) v [ccFrag 0, ccFrag 0, ccFrag 1, ccFrag 1, ccFrag 2] =
      [false, false, true, false, true] := by
    simp [seekFlags, handleFrag, ccFrag, hp, ht]
  rw [hflags]
  exact ⟨rfl, rfl⟩

/-- Witness for C4 at a concrete playing video position. -/
theorem claim_C4_discontinuity_seeks_witness :
    (VideoPos.mk false 5).paused = false ∧ 0 < (VideoPos.mk false 5).currentTime ∧
    (seekFlags (-1) ⟨false, 5⟩ [ccFrag 0, ccFrag 0, ccFrag 1, ccFrag 1, ccFrag 2] =
      [false, false, true, false, true] ∧
    ((seekFlags (-1) ⟨false, 5⟩ [ccFrag 0, ccFrag 0, ccFrag 1, ccFrag 1, ccFrag 2]).count true = 2)) :=
  ⟨rfl, by decide, claim_C4_discontinuity_seeks ⟨false, 5⟩ rfl (by decide)⟩

/-! ## C6: at most one live engine attachment -/

theorem engineInv_init (hs : Bool) : EngineInv (initPlayer hs) := by
  cases hs
  · exact ⟨by simp [initPlayer], by intro e he; simp [initPlayer] at he⟩
  · refine ⟨by simp [initPlayer], ?_⟩
    intro e he
    simp [initPlayer] at he
    subst he
    rfl

theorem stopStep_clears (st : PlayerState) (h : EngineInv st) :
    (stopStep st).engines = [] ∧ (stopStep st).hlsRef = none ∧
    (stopStep st).videoSrc = none := by
  rcases st with ⟨engines, hlsRef, videoSrc, nextId⟩
  cases hlsRef with
  | none =>
    have he : engines = [] := by
      cases engines with
      | nil => rfl
      | cons a t => exact absurd (h.2 a (List.mem_cons_self a t)) (by simp)
    simp [stopStep, he]
  | some i =>
    have he : engines.filter (fun e => !(e.id == i)) = [] := by
      rw [List.filter_eq_nil_iff]
      intro a ha
      have hsome := h.2 a ha
      have hai : i = a.id := by
        simpa using hsome
      simp [← hai]
    simp [stopStep, he]

theorem engineInv_stopStep (st : PlayerState) (h : EngineInv st) :
    EngineInv (stopStep st) := by
  have hc := stopStep_clears st h
  constructor
  · rw [hc.1]
    simp
  · intro eng hmem
    rw [hc.1] at hmem
    simp at hmem

theorem engineInv_playStep (s : Settings) (env : PlayEnv) (u : List Nat)
    (st : PlayerState) (h : EngineInv st) :
    EngineInv (playStep s env u st) := by
  have hc := stopStep_clears st h
  rw [playStep, attachPhase]
  by_cases ho : (playOutcome s env u).hlsCreated
  · rw [if_pos ho]
    constructor
    · simp [hc.1]
    · intro eng hmem
      simp [hc.1] at hmem
      subst hmem
      rfl
  · rw [if_neg ho]
    constructor
    · simp [hc.1]
    · intro eng hmem
      rw [show ({ stopStep st with videoSrc := loadedUrl (playOutcome s env u) } :
          PlayerState).engines = (stopStep st).engines from rfl, hc.1] at hmem
      simp at hmem

theorem engineInv_runPlayer (st : PlayerState) (h : EngineInv st)
    (ops : List PlayerOp) : EngineInv (runPlayer st ops) := by
  induction ops generalizing st with
  | nil => exact h
  | cons op rest ih =>
    cases op with
    | play s env u => exact ih _ (engineInv_playStep s env u st h)
    | stop => exact ih _ (engineInv_stopStep st h)

theorem numAttached_le_one (st : PlayerState) (h : EngineInv st) :
    numAttached st ≤ 1 :=
  le_trans (List.length_filter_le _ _) h.1

/-- Claim C6: along every sequence of play/stop operations from the
constructed player, at most one engine instance is ever attached; the
teardown that `play` performs first (embedded as `stopStep`) destroys
every live engine instance, nulls the `this.hls` reference and clears
the video source; and `play` is exactly teardown followed by attach, so
no two engine instances are ever attached concurrently. -/
theorem claim_C6_single_attachment (hs : Bool) (ops : List PlayerOp)
    (s : Settings) (env : PlayEnv) (u : List Nat) :
    numAttached (runPlayer (initPlayer hs) ops) ≤ 1 ∧
    (stopStep (runPlayer (initPlayer hs) ops)).engines = [] ∧
    (stopStep (runPlayer (initPlayer hs) ops)).hlsRef = none ∧
    (stopStep (runPlayer (initPlayer hs) ops)).videoSrc = none ∧
    playStep s env u (runPlayer (initPlayer hs) ops) =
      attachPhase s env u (stopStep (runPlayer (initPlayer hs) ops)) := by
  have hinv := engineInv_runPlayer (initPlayer hs) (engineInv_init hs) ops
  have hc := stopStep_clears _ hinv
  exact ⟨numAttached_le_one _ hinv, hc.1, hc.2.1, hc.2.2, rfl⟩

/-! ## C7-C9: transcode route -/

/-- Claim C7: a GET to the transcode route whose `url` query parameter is
absent returns HTTP 400 with the error JSON and performs no side effect:
no transcoder process is spawned, no close handler is registered, no
content type is set and no body beyond the error JSON is produced. -/
theorem claim_C7_missing_url_400 (spawnOk : Bool) :
    transcodeRoute none spawnOk =
      { status := 400
        body := RouteBody.errorJson "URL parameter is required"
        spawnedArgs := none
        closeRegistered := false
        contentType := none } := rfl

/-- Claim C8: for every transcode request that spawned a process, the
connection-close kill handler is registered, and the close event sends
exactly one SIGKILL, unconditionally: the handler's behaviour is the
same whether the process is still running or has already exited. -/
theorem claim_C8_kill_on_close (url : String) (spawnOk : Bool)
    (hu : jsFalsyQueryParam (some url) = false) (hs : spawnOk = true) :
    (transcodeRoute (some url) spawnOk).closeRegistered = true ∧
    onCloseHandler ProcState.running = ["SIGKILL"] ∧
    onCloseHandler ProcState.exited = ["SIGKILL"] ∧
    (onCloseHandler ProcState.running).length = 1 := by
  subst hs
  refine ⟨?_, rfl, rfl, rfl⟩
  simp [transcodeRoute, hu]

/-- Witness for C8 at a concrete URL. -/
theorem claim_C8_kill_on_close_witness :
    jsFalsyQueryParam (some "http://e/x.mkv") = false ∧
    ((transcodeRoute (some "http://e/x.mkv") true).closeRegistered = true ∧
     onCloseHandler ProcState.running = ["SIGKILL"] ∧
     onCloseHandler ProcState.exited = ["SIGKILL"] ∧
     (onCloseHandler ProcState.running).length = 1) :=
  ⟨rfl, claim_C8_kill_on_close "http://e/x.mkv" true rfl rfl⟩

/-- Claim C9: every transcode request with a (non-falsy) url parameter
spawns the transcoder with exactly the fixed argument list, and that
list satisfies the spec's contract: URL as input after `-i`, video
stream copied, audio re-encoded to AAC at 48000 Hz / 256k with async
resampling, fragmented MP4 to standard output. -/
theorem claim_C9_ffmpeg_args (url : String)
    (hu : jsFalsyQueryParam (some url) = false) :
    (transcodeRoute (some url) true).spawnedArgs = some (transcodeArgs url) ∧
    ffmpegArgsContract (transcodeArgs url) url := by
  constructor
  · simp [transcodeRoute, hu]
  · exact ⟨rfl, rfl, rfl, rfl, rfl, rfl, rfl, rfl, rfl, rfl, rfl, rfl, rfl, rfl, rfl,
      rfl, rfl⟩

/-- Witness for C9 at a concrete URL. -/
theorem claim_C9_ffmpeg_args_witness :
    jsFalsyQueryParam (some "http://e/v.mkv") = false ∧
    ((transcodeRoute (some "http://e/v.mkv") true).spawnedArgs =
      some (transcodeArgs "http://e/v.mkv") ∧
     ffmpegArgsContract (transcodeArgs "http://e/v.mkv") "http://e/v.mkv") :=
  ⟨rfl, claim_C9_ffmpeg_args "http://e/v.mkv" rfl⟩
